import Mathlib

/-!
Verification of the mail-reflector mailbox-synchronization and relay engine.

Shallow embedding of the Go sources under internal/reflector (imap.go,
check.go, serve.go, mark_as_seen.go, save_to_sent.go) and of ForwardMail.
External effects (IMAP server replies, SMTP send results, context
cancellation) are modelled as explicit oracle inputs; the Go control flow
over those inputs is translated function by function.
-/

namespace MailReflector

/-! ## Data model (imap.go 29-43, go-imap envelope addresses) -/

/-- Model of go-imap imap.Address: the Address() method returns
MailboxName, an at sign, and HostName; PersonalName is the display name
and is not part of Address(). -/
structure Address where
  personalName : String
  mailboxName : String
  hostName : String
deriving DecidableEq

/-- The Address() accessor of go-imap: address portion only, the display
name is ignored. -/
def Address.addressOf (a : Address) : String :=
  a.mailboxName ++ "@" ++ a.hostName

/-- Model of the fields of imap.Envelope the reflector reads. The From
list holds nullable pointers, hence Option. -/
structure Envelope where
  From : List (Option Address)
  subject : String
deriving DecidableEq

/-- An email attachment (imap.go 30-34); Data bytes are modelled as a
string of bytes. -/
structure Attachment where
  filename : String
  contentType : String
  data : String
deriving DecidableEq

/-- Basic info about a matching message (imap.go 37-43). The Envelope
pointer is nullable, hence Option. -/
structure MailSummary where
  envelope : Option Envelope
  uid : Nat
  textBody : String
  htmlBody : String
  attachments : List Attachment
deriving DecidableEq

/-! ## Sender filter (imap.go 154-196, 404-421) -/

/-- Model of strings.ToLower as used on filter entries and From
addresses: character-wise lowercasing. -/
def lowerString (s : String) : String :=
  ⟨s.data.map Char.toLower⟩

/-- Lowercasing of the configured filter addresses done in
fetchMatchingMessages (imap.go 160-164): strings.ToLower over each entry. -/
def normalizeFilters (filterFroms : List String) : List String :=
  filterFroms.map lowerString

/-- isFromAddressMatching (imap.go 404-413): nil envelope, empty From
list or nil first entry give false; otherwise the lowercased Address()
of the first From entry is looked up in the normalized filter list
(slices.Contains). -/
def isFromAddressMatching (envelope : Option Envelope)
    (normalizedFilters : List String) : Bool :=
  match envelope with
  | none => false
  | some env =>
    match env.From with
    | [] => false
    | none :: _ => false
    | some addr :: _ => normalizedFilters.contains (lowerString (Address.addressOf addr))

/-- getFromAddress (imap.go 416-421). -/
def getFromAddress (envelope : Option Envelope) : String :=
  match envelope with
  | none => "unknown"
  | some env =>
    match env.From with
    | [] => "unknown"
    | none :: _ => "unknown"
    | some addr :: _ => Address.addressOf addr

/-- Decidable equality for Except, used to evaluate embedded results on
concrete inputs. -/
instance {ε α : Type} [DecidableEq ε] [DecidableEq α] : DecidableEq (Except ε α) := fun a b =>
  match a, b with
  | .error x, .error y =>
    decidable_of_iff (x = y) ⟨by rintro rfl; rfl, by intro h; injection h⟩
  | .error _, .ok _ => isFalse (by intro h; injection h)
  | .ok _, .error _ => isFalse (by intro h; injection h)
  | .ok x, .ok y =>
    decidable_of_iff (x = y) ⟨by rintro rfl; rfl, by intro h; injection h⟩

/-! ## MIME decomposer (check.go second revision: extractBodies) -/

/-- Outcome of parsing the Content-Disposition header of a part for its
filename parameter (mime.ParseMediaType in extractBodies): the header may
be absent (Get returns the empty string), fail to parse, or parse with or
without a filename parameter. -/
inductive CDFilename where
  | absent
  | unparseable
  | params (filename : Option String)
deriving DecidableEq

/-- One MIME part as delivered by MultipartReader.NextPart. The body
field is the outcome of io.ReadAll on the part body: error models a
corrupt part whose content cannot be read. Parts after a non-EOF
NextPart error are never yielded, so they simply do not appear in the
list (the loop treats EOF and a NextPart error identically: both break). -/
structure Part where
  mediaType : String
  disposition : String
  cd : CDFilename
  body : Except Unit String
deriving DecidableEq

/-- A parsed message entity: multipart (walked part by part) or a single
part classified by its top-level content type. -/
inductive Entity where
  | multipart (parts : List Part)
  | single (mediaType : String) (body : Except Unit String)
deriving DecidableEq

/-- Filename defaulting in extractBodies: start from "attachment", use
the filename parameter only when the Content-Disposition header parses
and carries one. -/
def attachmentFilename (cd : CDFilename) : String :=
  match cd with
  | .params (some name) => name
  | _ => "attachment"

/-- One iteration of the part loop in extractBodies: a failed body read
is skipped (continue); an attachment-disposition part is appended to the
attachment list; a text/plain or text/html part overwrites the
respective body candidate (last one wins); anything else is discarded. -/
def extractStep (acc : String × String × List Attachment) (p : Part) :
    String × String × List Attachment :=
  match p.body with
  | .error _ => acc
  | .ok body =>
    if p.disposition == "attachment" then
      (acc.1, acc.2.1, acc.2.2 ++ [⟨attachmentFilename p.cd, p.mediaType, body⟩])
    else if p.mediaType == "text/plain" then
      (body, acc.2.1, acc.2.2)
    else if p.mediaType == "text/html" then
      (acc.1, body, acc.2.2)
    else acc

/-- extractBodies: walk a multipart entity part by part, or classify a
single-part entity by its top-level media type (a failed read of a
single-part body yields empty results). -/
def extractBodies (entity : Entity) : String × String × List Attachment :=
  match entity with
  | .multipart parts => parts.foldl extractStep ("", "", [])
  | .single mediaType body =>
    match body with
    | .error _ => ("", "", [])
    | .ok b =>
      if mediaType == "text/plain" then (b, "", [])
      else if mediaType == "text/html" then ("", b, [])
      else ("", "", [])

/-! ## Two-phase robust fetch (imap.go 198-362)

The IMAP server is modelled as an oracle: the reply of the phase-1
validation fetch, and one reply per UID for the phase-2 per-message
fetch. Context cancellation is modelled by the number of phase-2 loop
iterations after which ctx.Done fires (none when it never fires). -/

/-- Data of one message as delivered by the server in a phase-2 fetch:
nullable envelope, its UID, and the body section. The body is none when
GetBody returns nil, some error when message.Read fails to parse it, and
some ok with the parsed entity otherwise. -/
structure MessageData where
  envelope : Option Envelope
  uid : Nat
  body : Option (Except Unit Entity)
deriving DecidableEq

/-- Server reply to the phase-2 UidFetch for one UID: the fetch command
can fail (transport error) or time out (the 15 s per-message timeout,
imap.go 318-325), the message channel can be empty (imap.go 328-331), or
a message is delivered. -/
inductive FetchReply where
  | failed
  | noMessage
  | delivered (m : MessageData)
deriving DecidableEq

/-- Result of fetchSingleMessage as observed by its caller: an error
(any of its error returns), a message that does not match the filter, or
a matching MailSummary. -/
inductive SingleFetchOutcome where
  | err
  | noMatch
  | matched (s : MailSummary)
deriving DecidableEq

/-- fetchSingleMessage (imap.go 295-362): fetch error, timeout or a
missing message are errors; a delivered message is first checked against
the filter (non-matching messages return without error and without
touching the body); for a matching message a nil body or a parse failure
is an error, otherwise extractBodies builds the MailSummary, whose UID
and envelope come from the delivered message itself. -/
def fetchSingleMessage (reply : FetchReply) (filters : List String) :
    SingleFetchOutcome :=
  match reply with
  | .failed => .err
  | .noMessage => .err
  | .delivered m =>
    if isFromAddressMatching m.envelope filters then
      match m.body with
      | none => .err
      | some (.error _) => .err
      | some (.ok entity) =>
        let tha := extractBodies entity
        .matched ⟨m.envelope, m.uid, tha.1, tha.2.1, tha.2.2⟩
    else .noMatch

/-- Server reply to the phase-1 validation fetch (validateUIDs,
imap.go 255-292): the UidFetch can fail, the validation timeout can
fire, or a list of messages is delivered (nil entries possible). -/
inductive ValidationReply where
  | fetchFailed
  | timedOut
  | messages (ms : List (Option Nat))
deriving DecidableEq

/-- validateUIDs (imap.go 255-292): a fetch error or a validation
timeout aborts with an error; otherwise the valid UIDs are those of the
delivered messages that are non-nil and have Uid greater than zero. -/
def validateUIDs (reply : ValidationReply) : Except Unit (List Nat) :=
  match reply with
  | .fetchFailed => .error ()
  | .timedOut => .error ()
  | .messages ms =>
    .ok (ms.filterMap (fun m? =>
      match m? with
      | none => none
      | some uid => if uid > 0 then some uid else none))

/-- One phase-2 iteration body (imap.go 229-242): an error from
fetchSingleMessage skips the message and continues; a non-matching
message is just not collected; a matching summary is prepended to the
results of the remaining iterations. -/
def fetchLoopStep (oracle : Nat → FetchReply) (filters : List String)
    (uid : Nat) (restResult : Except Unit (List MailSummary)) :
    Except Unit (List MailSummary) :=
  match fetchSingleMessage (oracle uid) filters with
  | .err => restResult
  | .noMatch => restResult
  | .matched s => Except.map (fun out => s :: out) restResult

/-- The phase-2 loop of fetchMessagesRobustly (imap.go 221-242). At the
top of each iteration ctx.Done is polled: when cancellation has fired
(budget exhausted) the whole call returns an error, discarding all
results collected so far (imap.go 222-227). -/
def fetchLoop (oracle : Nat → FetchReply) (filters : List String) :
    List Nat → Option Nat → Except Unit (List MailSummary)
  | [], _ => .ok []
  | _ :: _, some 0 => .error ()
  | uid :: rest, some (n + 1) =>
    fetchLoopStep oracle filters uid (fetchLoop oracle filters rest (some n))
  | uid :: rest, none =>
    fetchLoopStep oracle filters uid (fetchLoop oracle filters rest none)

/-- The UIDs for which the phase-2 loop issues a per-message fetch: every
valid UID reached before cancellation, unconditionally — the loop keeps
no record of earlier failures (imap.go 221-242). -/
def fetchLoopAttempts : List Nat → Option Nat → List Nat
  | [], _ => []
  | _ :: _, some 0 => []
  | uid :: rest, some (n + 1) => uid :: fetchLoopAttempts rest (some n)
  | uid :: rest, none => uid :: fetchLoopAttempts rest none

/-- fetchMessagesRobustly (imap.go 199-252): phase-1 validation failure
(error or timeout) aborts the whole call; otherwise the phase-2 loop
runs over the valid UIDs. The empty-valid-UID early return (imap.go
209-212) yields the same empty result as the loop over the empty list. -/
def fetchMessagesRobustly (validation : ValidationReply)
    (oracle : Nat → FetchReply) (cancelAfter : Option Nat)
    (filters : List String) : Except Unit (List MailSummary) :=
  match validateUIDs validation with
  | .error e => .error e
  | .ok validUIDs => fetchLoop oracle filters validUIDs cancelAfter

/-! ## Phase-2 body fetch item and the seen flag (imap.go 305-310)

fetchSingleMessage builds the body section with
section := new imap.BodySectionName with all fields left at their Go
zero values, so its Peek field is false. -/

/-- The Peek field of the body section used by the phase-2 fetch
(imap.go 305): Go zero value false. -/
def fetchSectionPeek : Bool := false

/-- Modelled from the go-imap BodySectionName encoding: the fetch item
is BODY.PEEK with the section when Peek is set and plain BODY with the
section otherwise. -/
def bodyFetchItem (peek : Bool) : String :=
  if peek then "BODY.PEEK[]" else "BODY[]"

/-- Modelled from IMAP semantics (RFC 3501 section 6.4.5): a BODY fetch
implicitly sets the seen flag on the message; a BODY.PEEK fetch leaves
the flags unchanged. -/
def seenAfterBodyFetch (seenBefore : Bool) (peek : Bool) : Bool :=
  seenBefore || !peek

/-! ## Relay / forwarder (ForwardMail, second revision of auth.go file;
archival in save_to_sent.go first revision) -/

/-- The outbound message composed by ForwardMail, with the header fields
and body parts it sets. The code never sets a Cc header, so Cc is the
empty list. -/
structure OutMessage where
  From : String
  To : String
  ReplyTo : String
  Bcc : List String
  Cc : List String
  Subject : String
  textBody : String
  htmlAlternative : Option String
  attachments : List Attachment
deriving DecidableEq

/-- Extraction of the original sender performed by ForwardMail:
original.Envelope.From index 0 and its Address(). The Go code indexes
without a check and would panic on a nil envelope, an empty From list or
a nil first entry; those cases are modelled as none. -/
def firstFromAddr : Option Envelope → Option Address
  | none => none
  | some env =>
    match env.From with
    | [] => none
    | none :: _ => none
    | some a :: _ => some a

/-- Subject accessor used by ForwardMail (original.Envelope.Subject);
only reached when the envelope is present. -/
def subjectOf : Option Envelope → String
  | none => ""
  | some env => env.subject

/-- Message composition in ForwardMail: From is the configured SMTP
identity, To and Reply-To are the Address() of the original first From
entry, Bcc is the configured recipient list, the subject gets the
configured prefix and a space in front when the prefix is non-empty, the
text body is mandatory, the HTML body is added as an alternative only
when non-empty, and every attachment is re-attached with its filename
and content type. -/
def composeForward (smtpUser : String) (recipients : List String)
    (pfx : String) (original : MailSummary) : Option OutMessage :=
  match firstFromAddr original.envelope with
  | none => none
  | some sender =>
    let subj := subjectOf original.envelope
    some
      { From := smtpUser
        To := sender.addressOf
        ReplyTo := sender.addressOf
        Bcc := recipients
        Cc := []
        Subject := if pfx != "" then pfx ++ " " ++ subj else subj
        textBody := original.textBody
        htmlAlternative := if original.htmlBody != "" then some original.htmlBody else none
        attachments := original.attachments }

/-- Classification of an IMAP Append error by the two substring tests of
save_to_sent.go: isNoSuchMailboxError and isNoContinuationRequestError. -/
structure AppendError where
  noSuchMailbox : Bool
  continuationRequest : Bool
deriving DecidableEq

/-- The prioritized candidate Sent folder names (save_to_sent.go 47-57). -/
def sentFolders : List String :=
  ["Sent", "Sent Items", "Sent Messages", "Gesendet", "Gesendete Elemente",
   "Gesendete Objekte", "INBOX.Sent", "INBOX.Sent Items", "INBOX.Gesendet"]

/-- The folder loop of saveToSent (save_to_sent.go 62-86): the first
successful append returns ok; an error that is not a missing-mailbox
error but is a continuation-request error aborts immediately with an
error; any other error is remembered as lastErr and the next candidate
is tried; when all candidates are exhausted the function returns an
error (wrapping lastErr, or the no-folders-tried message). -/
def saveToSentLoop (replies : String → Except AppendError Unit) :
    List String → Option AppendError → Except Unit Unit
  | [], _ => .error ()
  | folder :: rest, _ =>
    match replies folder with
    | .ok _ => .ok ()
    | .error e =>
      if !e.noSuchMailbox && e.continuationRequest then .error ()
      else saveToSentLoop replies rest (some e)

/-- saveToSent (save_to_sent.go 21-87): try the candidate folders in
order. -/
def saveToSent (replies : String → Except AppendError Unit) :
    Except Unit Unit :=
  saveToSentLoop replies sentFolders none

/-- Result of the SMTP DialAndSend call in ForwardMail. -/
inductive SmtpSendReply where
  | ok
  | failed
deriving DecidableEq

/-- Result of serializing the composed message (msg.WriteTo) before the
archival append. -/
inductive SerializeReply where
  | ok
  | failed
deriving DecidableEq

/-- ForwardMail (second revision of the auth.go file, 161-254): compose
the outbound message (none models the Go panic on a missing From
address); a send failure returns an error; after a successful send, when
an IMAP client is present the message is serialized for archival — a
serialization failure returns an error — and saveToSent is attempted,
whose result is only logged and never affects the returned value. -/
def ForwardMail (smtpUser : String) (recipients : List String)
    (pfx : String) (original : MailSummary) (send : SmtpSendReply)
    (hasClient : Bool) (serialize : SerializeReply)
    (saveReplies : String → Except AppendError Unit) :
    Option (OutMessage × Except Unit Unit) :=
  match composeForward smtpUser recipients pfx original with
  | none => none
  | some msg =>
    some (msg,
      match send with
      | .failed => .error ()
      | .ok =>
        if hasClient then
          match serialize with
          | .failed => .error ()
          | .ok =>
            let _ := saveToSent saveReplies
            .ok ()
        else .ok ())

/-! ## Forward-then-mark pipeline (check.go 8-38, serve.go 135-159) -/

/-- Observable operations of one processing pass, per message UID. -/
inductive Event where
  | forwardAttempt (uid : Nat) (ok : Bool)
  | markSeen (uid : Nat) (ok : Bool)
deriving DecidableEq

/-- The operations performed for one message in the CheckAndForward loop
(check.go 24-35): ForwardMail is attempted first; on failure the loop
continues with the next message and markAsSeen is not called; on success
markAsSeen is called, and its outcome is only logged. The per-message
closure of processMessagesWithConn (serve.go 141-158) performs the same
forward-then-mark sequence. -/
def forwardBlock (forwardOk markOk : Nat → Bool) (uid : Nat) : List Event :=
  if forwardOk uid then
    [Event.forwardAttempt uid true, Event.markSeen uid (markOk uid)]
  else
    [Event.forwardAttempt uid false]

/-- The event trace of the message loop of CheckAndForward (check.go
24-35) over the fetched message UIDs. -/
def checkAndForwardTrace (mails : List Nat) (forwardOk markOk : Nat → Bool) :
    List Event :=
  match mails with
  | [] => []
  | uid :: rest =>
    forwardBlock forwardOk markOk uid ++ checkAndForwardTrace rest forwardOk markOk

/-- The value returned by CheckAndForward (check.go 8-38): the fetch
error when fetching failed, otherwise nil — per-message forward and
mark-seen failures are logged and never returned. -/
def checkAndForwardResult (fetchResult : Except Unit (List Nat))
    (_forwardOk _markOk : Nat → Bool) : Except Unit Unit :=
  match fetchResult with
  | .error e => .error e
  | .ok _ => .ok ()

/-- Predicate selecting the forward events of a trace. -/
def isForwardEvent : Event → Bool
  | .forwardAttempt _ _ => true
  | .markSeen _ _ => false

/-! ## Watch-loop reconnect backoff (serve.go 14-52) -/

/-- The reconnect delay in seconds computed after a failed connection
attempt (serve.go 33-41): the attempt count is clamped to 6, multiplied
by 10 seconds, and the result is clamped to 300 seconds (5 minutes). -/
def serveBackoffDelay (connectionAttempt : Nat) : Nat :=
  let attempts := if connectionAttempt > 6 then 6 else connectionAttempt
  let delay := attempts * 10
  if delay > 300 then 300 else delay

/-- Evolution of the connectionAttempt counter across one iteration of
the Serve loop (serve.go 26, 52): it is incremented before the connect
attempt and reset to zero when the connection succeeds. -/
def serveAttemptAfter (connectionAttempt : Nat) (connectOk : Bool) : Nat :=
  if connectOk then 0 else connectionAttempt + 1

/-! ## Sample data used by concrete witnesses and counterexamples -/

/-- A sample sender address with a display name and mixed-case address. -/
def boardAddress : Address := ⟨"The Board", "Board", "Org.Example"⟩

/-- A sample envelope from that sender. -/
def sampleEnvelope : Envelope := ⟨[some boardAddress], "Update"⟩

/-- A sample fetched summary of a message from that sender. -/
def sampleSummary : MailSummary :=
  ⟨some sampleEnvelope, 7, "hello", "", []⟩

/-- The outbound message ForwardMail composes for sampleSummary with no
subject prefix configured. -/
def sampleOut : OutMessage :=
  ⟨"relay@host.example", "Board@Org.Example", "Board@Org.Example",
   ["r1@x.example"], [], "Update", "hello", none, []⟩

/-! ## C3 -/

/-- C3: the claim says the phase-2 full-body retrieval uses a peek-mode
read and leaves the seen flag unchanged. The code builds the body
section with the Peek field left at its false zero value, so the fetch
item is a plain BODY fetch, which implicitly sets the seen flag on a
previously unseen message: the code contradicts the claim (and defeats
its own explicit markAsSeen step, which only makes sense when the body
fetch itself does not set the flag). -/
theorem C3_body_fetch_not_peek :
    fetchSectionPeek = false
    ∧ bodyFetchItem fetchSectionPeek = "BODY[]"
    ∧ seenAfterBodyFetch false fetchSectionPeek = true :=
  ⟨rfl, rfl, rfl⟩

/-! ## C8 -/

/-- C8 counterexample: the claim says the reconnect delay doubles on
each successive failure, capped at 5 minutes. At attempt 3 the cap
(300 s) is not reached, yet the delay is 30 s rather than double the
attempt-2 delay of 20 s: the backoff is not exponential. -/
theorem C8_counterexample :
    serveBackoffDelay 1 = 10
    ∧ serveBackoffDelay 2 = 2 * serveBackoffDelay 1
    ∧ serveBackoffDelay 3 < 300
    ∧ serveBackoffDelay 3 ≠ 2 * serveBackoffDelay 2 := by
  refine ⟨rfl, rfl, by decide, by decide⟩

/-- C8 amended: the Watch Loop waits before retrying with a linear
backoff of min(attempt, 6) times 10 seconds, hence at most 60 seconds
(the additional 5-minute cap in the code is unreachable), and the
attempt counter resets to zero on every successful connect. -/
theorem C8_amended_linear_backoff :
    (∀ n, serveBackoffDelay n = min n 6 * 10)
    ∧ (∀ n, serveBackoffDelay n ≤ 60)
    ∧ (∀ a, serveAttemptAfter a true = 0)
    ∧ (∀ a, serveAttemptAfter a false = a + 1) := by
  refine ⟨?_, ?_, fun a => rfl, fun a => rfl⟩
  · intro n
    simp only [serveBackoffDelay]
    split <;> split <;> omega
  · intro n
    simp only [serveBackoffDelay]
    split <;> split <;> omega

/-! ## C9 -/

/-- A readable attachment part used in the concrete 9-plus-1 scenario. -/
def goodPartAt (i : Nat) : Part :=
  ⟨"application/octet-stream", "attachment",
   CDFilename.params (some ("file" ++ toString i)),
   Except.ok ("data" ++ toString i)⟩

/-- An attachment part whose body read fails. -/
def corruptPart : Part :=
  ⟨"application/pdf", "attachment", CDFilename.params (some "broken.pdf"),
   Except.error ()⟩

/-- Nine readable attachment parts. -/
def nineGoodParts : List Part :=
  (List.range 5).map goodPartAt ++ (List.range' 5 4).map goodPartAt

/-- Nine readable attachment parts with a corrupt one inserted in the
middle. -/
def tenParts : List Part :=
  (List.range 5).map goodPartAt ++ corruptPart :: (List.range' 5 4).map goodPartAt

/-- C9: a part whose content read fails is skipped and the decomposition
of the remaining parts is unchanged; concretely, a message with 9
readable attachments and 1 corrupt one yields exactly the 9 readable
attachments. -/
theorem C9_corrupt_part_skipped (pre post : List Part) (mt disp : String)
    (cd : CDFilename) :
    extractBodies (Entity.multipart (pre ++ ⟨mt, disp, cd, Except.error ()⟩ :: post))
      = extractBodies (Entity.multipart (pre ++ post))
    ∧ (extractBodies (Entity.multipart tenParts)).2.2
        = (extractBodies (Entity.multipart nineGoodParts)).2.2
    ∧ (extractBodies (Entity.multipart tenParts)).2.2.length = 9 := by
  refine ⟨?_, rfl, rfl⟩
  show (pre ++ ⟨mt, disp, cd, Except.error ()⟩ :: post).foldl extractStep ("", "", [])
      = (pre ++ post).foldl extractStep ("", "", [])
  rw [List.foldl_append, List.foldl_append, List.foldl_cons]
  rfl

/-! ## C2 -/

/-- C2 counterexample: the claim says a UID that failed 3 consecutive
times is skipped, so a 4th fetch attempt is never issued. The code keeps
no failure registry: with a server on which the fetch of UID 5 always
fails, four consecutive passes issue four fetch attempts for UID 5, each
pass merely returning no summaries. -/
theorem C2_counterexample :
    fetchLoop (fun _ => FetchReply.failed) ["board@org.example"] [5] none
      = Except.ok []
    ∧ ((List.replicate 4 (fetchLoopAttempts [5] none)).flatten).count 5 = 4 :=
  ⟨rfl, rfl⟩

/-- C2 amended: there is no per-UID failure registry. Within one pass a
failed UID is skipped for the rest of that pass only (it contributes no
summary); every pass attempts every valid UID again regardless of
earlier failures, so after n failing passes the UID has been attempted n
times. -/
theorem C2_amended_no_failure_registry (filters : List String) :
    (∀ uids : List Nat, fetchLoopAttempts uids none = uids)
    ∧ (∀ uid, fetchLoop (fun _ => FetchReply.failed) filters [uid] none = Except.ok [])
    ∧ (∀ n uid, ((List.replicate n (fetchLoopAttempts [uid] none)).flatten).count uid = n) := by
  refine ⟨?_, fun uid => rfl, ?_⟩
  · intro uids
    induction uids with
    | nil => rfl
    | cons u rest ih => simp [fetchLoopAttempts, ih]
  · intro n uid
    induction n with
    | zero => rfl
    | succ k ih =>
      have h1 : fetchLoopAttempts [uid] none = [uid] := rfl
      simp only [List.replicate_succ, List.flatten_cons, List.count_append, ih, h1]
      simp [List.count_cons]
      omega

/-! ## C5 -/

/-- C5 counterexample: the claim says forward reports failure only when
the send itself fails. With a successful send but a failing
serialization of the message for archival (msg.WriteTo), ForwardMail
returns an error even though the send succeeded. -/
theorem C5_counterexample :
    ∃ m, ForwardMail "relay@host.example" ["r1@x.example"] "" sampleSummary
        SmtpSendReply.ok true SerializeReply.failed (fun _ => Except.ok ())
      = some (m, Except.error ()) :=
  ⟨sampleOut, by decide⟩

/-- C5 amended: failures of the saveToSent archival call itself —
including a continuation-request-unsupported reply and exhaustion of
all candidate Sent folders — never cause ForwardMail to return an error
after a successful send; however a failure to serialize the message for
archival does make ForwardMail return an error despite the successful
send, and a send failure always returns an error. -/
theorem C5_amended_archival_never_fails_forward (smtpUser : String)
    (recipients : List String) (pfx : String) (original : MailSummary)
    (hasClient : Bool) (saveReplies : String → Except AppendError Unit)
    (msg : OutMessage)
    (hcomp : composeForward smtpUser recipients pfx original = some msg) :
    ForwardMail smtpUser recipients pfx original SmtpSendReply.ok hasClient
        SerializeReply.ok saveReplies = some (msg, Except.ok ())
    ∧ (∀ ser save2, ForwardMail smtpUser recipients pfx original SmtpSendReply.failed
        hasClient ser save2 = some (msg, Except.error ()))
    ∧ saveToSent (fun _ => Except.error ⟨false, true⟩) = Except.error ()
    ∧ saveToSent (fun _ => Except.error ⟨true, false⟩) = Except.error () := by
  refine ⟨?_, ?_, rfl, rfl⟩
  · cases hasClient <;> simp [ForwardMail, hcomp]
  · intro ser save2
    simp [ForwardMail, hcomp]

/-- C5 witness: the amended theorem applied to a concrete message whose
send succeeds: archival outcomes do not affect the ok result. -/
theorem C5_amended_witness :
    ForwardMail "relay@host.example" ["r1@x.example"] "" sampleSummary
        SmtpSendReply.ok true SerializeReply.ok (fun _ => Except.error ⟨false, true⟩)
      = some (sampleOut, Except.ok ()) :=
  (C5_amended_archival_never_fails_forward "relay@host.example" ["r1@x.example"] ""
    sampleSummary true (fun _ => Except.error ⟨false, true⟩) sampleOut (by decide)).1

/-! ## C6 -/

/-- C6: for every forwarded summary with a readable original sender, the
outbound message has From equal to the configured outbound identity, To
and Reply-To equal to the address portion of the original sender, the
recipient list in Bcc and an empty Cc, and the subject is the configured
prefix, a space and the original subject when a prefix is configured and
the original subject unchanged otherwise. -/
theorem C6_outbound_message_fields (smtpUser : String)
    (recipients : List String) (pfx : String) (original : MailSummary)
    (env : Envelope) (sender : Address) (rest : List (Option Address))
    (henv : original.envelope = some env)
    (hfrom : env.From = some sender :: rest) :
    ∃ m, composeForward smtpUser recipients pfx original = some m
      ∧ m.From = smtpUser
      ∧ m.To = Address.addressOf sender
      ∧ m.ReplyTo = Address.addressOf sender
      ∧ m.Bcc = recipients
      ∧ m.Cc = []
      ∧ m.Subject = (if pfx != "" then pfx ++ " " ++ env.subject else env.subject) := by
  have h1 : firstFromAddr original.envelope = some sender := by
    simp [firstFromAddr, henv, hfrom]
  have h2 : subjectOf original.envelope = env.subject := by
    simp [subjectOf, henv]
  refine ⟨⟨smtpUser, sender.addressOf, sender.addressOf, recipients, [],
      (if pfx != "" then pfx ++ " " ++ env.subject else env.subject),
      original.textBody,
      (if original.htmlBody != "" then some original.htmlBody else none),
      original.attachments⟩, ?_, rfl, rfl, rfl, rfl, rfl, rfl⟩
  simp [composeForward, h1, h2]

/-- C6 witness: the theorem applied to a concrete summary, with and
without a configured prefix visible through the if in the conclusion. -/
theorem C6_witness :
    ∃ m, composeForward "relay@host.example" ["a@x.example", "b@x.example"]
        "[verein]" sampleSummary = some m
      ∧ m.From = "relay@host.example"
      ∧ m.To = Address.addressOf boardAddress
      ∧ m.ReplyTo = Address.addressOf boardAddress
      ∧ m.Bcc = ["a@x.example", "b@x.example"]
      ∧ m.Cc = []
      ∧ m.Subject = (if ("[verein]" : String) != "" then
          "[verein]" ++ " " ++ sampleEnvelope.subject else sampleEnvelope.subject) :=
  C6_outbound_message_fields "relay@host.example" ["a@x.example", "b@x.example"]
    "[verein]" sampleSummary sampleEnvelope boardAddress [] rfl rfl

/-! ## C7 -/

/-- Helper: a UID whose phase-2 fetch fails (error or per-message
timeout) contributes nothing and the loop continues with the remaining
UIDs unchanged. -/
theorem fetchLoop_skip_failed (oracle : Nat → FetchReply)
    (filters : List String) (uid : Nat)
    (hfail : oracle uid = FetchReply.failed) :
    ∀ pre post : List Nat,
      fetchLoop oracle filters (pre ++ uid :: post) none
        = fetchLoop oracle filters (pre ++ post) none := by
  intro pre
  induction pre with
  | nil =>
    intro post
    simp only [List.nil_append, fetchLoop, fetchLoopStep, hfail, fetchSingleMessage]
  | cons p rest ih =>
    intro post
    simp only [List.cons_append, fetchLoop]
    exact congrArg (fetchLoopStep oracle filters p) (ih post)

/-- C7: a per-message failure in phase 2 (fetch error or the
per-message timeout, both arriving as a failed reply) only skips that
message — the result over the remaining UIDs is unchanged — whereas a
phase-1 validation timeout (and likewise a validation fetch error)
aborts the entire fetchMessagesRobustly call with an error. -/
theorem C7_phase_scoped_failures (oracle : Nat → FetchReply)
    (filters : List String) (cancelAfter : Option Nat)
    (pre post : List Nat) (uid : Nat)
    (hfail : oracle uid = FetchReply.failed) :
    fetchMessagesRobustly ValidationReply.timedOut oracle cancelAfter filters
      = Except.error ()
    ∧ fetchMessagesRobustly ValidationReply.fetchFailed oracle cancelAfter filters
      = Except.error ()
    ∧ fetchLoop oracle filters (pre ++ uid :: post) none
        = fetchLoop oracle filters (pre ++ post) none :=
  ⟨rfl, rfl, fetchLoop_skip_failed oracle filters uid hfail pre post⟩

/-- An oracle on which the fetch of UID 5 fails and every other UID is
delivered as a parseable plain-text message from the sample sender. -/
def sampleOracle : Nat → FetchReply := fun u =>
  if u = 5 then FetchReply.failed
  else FetchReply.delivered
    ⟨some sampleEnvelope, u, some (Except.ok (Entity.single "text/plain" (Except.ok "hi")))⟩

/-- C7 witness: the theorem at a concrete oracle where UID 5 fails
between UIDs 1 and 2. -/
theorem C7_witness :
    fetchMessagesRobustly ValidationReply.timedOut sampleOracle none
        ["board@org.example"] = Except.error ()
    ∧ fetchMessagesRobustly ValidationReply.fetchFailed sampleOracle none
        ["board@org.example"] = Except.error ()
    ∧ fetchLoop sampleOracle ["board@org.example"] ([1] ++ 5 :: [2]) none
        = fetchLoop sampleOracle ["board@org.example"] ([1] ++ [2]) none :=
  C7_phase_scoped_failures sampleOracle ["board@org.example"] none [1] [2] 5 (by decide)

/-! ## C1 -/

/-- The envelope carried by a delivered phase-2 reply. -/
def deliveredEnvelope : FetchReply → Option Envelope
  | .delivered m => m.envelope
  | _ => none

/-- Helper: phase-1 validation of a reply delivering exactly the
searched messages, all with positive UIDs, validates all of them. -/
theorem validate_all_positive (uids : List Nat)
    (hpos : ∀ u ∈ uids, 0 < u) :
    validateUIDs (ValidationReply.messages (uids.map some)) = Except.ok uids := by
  simp only [validateUIDs, Except.ok.injEq]
  induction uids with
  | nil => rfl
  | cons u rest ih =>
    have hu : 0 < u := hpos u (by simp)
    simp only [List.map_cons, List.filterMap_cons]
    rw [if_pos hu]
    rw [ih (fun v hv => hpos v (by simp [hv]))]

/-- Helper: when every valid UID is delivered with a parseable body, the
phase-2 loop succeeds and returns exactly the summaries of the messages
whose first From address matches the filter, in order. -/
theorem fetchLoop_happy (oracle : Nat → FetchReply) (filters : List String) :
    ∀ uids : List Nat,
      (∀ u ∈ uids, ∃ env ent,
          oracle u = FetchReply.delivered ⟨env, u, some (Except.ok ent)⟩) →
      ∃ out, fetchLoop oracle filters uids none = Except.ok out
        ∧ out.map MailSummary.uid
            = uids.filter (fun u =>
                isFromAddressMatching (deliveredEnvelope (oracle u)) filters)
        ∧ ∀ s ∈ out, isFromAddressMatching s.envelope filters = true := by
  intro uids
  induction uids with
  | nil => exact fun _ => ⟨[], rfl, rfl, by simp⟩
  | cons u rest ih =>
    intro h
    obtain ⟨env, ent, hu⟩ := h u (by simp)
    obtain ⟨out, hout, hmap, hall⟩ := ih (fun v hv => h v (by simp [hv]))
    by_cases hm : isFromAddressMatching env filters
    · refine ⟨⟨env, u, (extractBodies ent).1, (extractBodies ent).2.1,
          (extractBodies ent).2.2⟩ :: out, ?_, ?_, ?_⟩
      · simp only [fetchLoop, fetchLoopStep, fetchSingleMessage, hu, hm, if_true, hout,
          Except.map]
      · simp only [List.map_cons, List.filter_cons, hu, deliveredEnvelope, hm,
          if_true, hmap]
      · intro s hs
        rcases List.mem_cons.mp hs with rfl | hs
        · exact hm
        · exact hall s hs
    · refine ⟨out, ?_, ?_, hall⟩
      · simp [fetchLoop, fetchLoopStep, fetchSingleMessage, hu, hm, hout]
      · simp [List.filter_cons, hu, deliveredEnvelope, hm, hmap]

/-- C1: over any set of unseen messages all of which the server delivers
with parseable bodies, fetchMessagesRobustly succeeds and its output
contains exactly the messages whose first From address matches some
allow-list entry, and no others; matching compares only the lowercased
address portion against the lowercased allow-list entry, ignoring the
display name. -/
theorem C1_fetcher_filters_exactly (allowList : List String)
    (uids : List Nat) (oracle : Nat → FetchReply)
    (hpos : ∀ u ∈ uids, 0 < u)
    (hok : ∀ u ∈ uids, ∃ env ent,
        oracle u = FetchReply.delivered ⟨env, u, some (Except.ok ent)⟩) :
    (∃ out,
      fetchMessagesRobustly (ValidationReply.messages (uids.map some)) oracle none
          (normalizeFilters allowList) = Except.ok out
      ∧ out.map MailSummary.uid
          = uids.filter (fun u =>
              isFromAddressMatching (deliveredEnvelope (oracle u))
                (normalizeFilters allowList))
      ∧ ∀ s ∈ out,
          isFromAddressMatching s.envelope (normalizeFilters allowList) = true)
    ∧ (∀ env, isFromAddressMatching env (normalizeFilters allowList) = true ↔
          ∃ env2 a rest, env = some env2 ∧ env2.From = some a :: rest ∧
            ∃ f ∈ allowList, lowerString (Address.addressOf a) = lowerString f)
    ∧ (∀ name1 name2 box host rest subj,
        isFromAddressMatching (some ⟨some ⟨name1, box, host⟩ :: rest, subj⟩)
            (normalizeFilters allowList)
          = isFromAddressMatching (some ⟨some ⟨name2, box, host⟩ :: rest, subj⟩)
            (normalizeFilters allowList)) := by
  refine ⟨?_, ?_, fun _ _ _ _ _ _ => rfl⟩
  · obtain ⟨out, hout, hmap, hall⟩ :=
      fetchLoop_happy oracle (normalizeFilters allowList) uids hok
    refine ⟨out, ?_, hmap, hall⟩
    simp only [fetchMessagesRobustly, validate_all_positive uids hpos, hout]
  · intro env
    cases env with
    | none => simp [isFromAddressMatching]
    | some env2 =>
      cases hF : env2.From with
      | nil => simp [isFromAddressMatching, hF]
      | cons a0 rest =>
        cases a0 with
        | none => simp [isFromAddressMatching, hF]
        | some a =>
          simp only [isFromAddressMatching, hF, normalizeFilters]
          rw [List.contains_iff_exists_mem_beq]
          constructor
          · rintro ⟨f, hf, hbeq⟩
            obtain ⟨g, hg, rfl⟩ := List.mem_map.mp hf
            exact ⟨env2, a, rest, rfl, hF, g, hg, eq_of_beq hbeq⟩
          · rintro ⟨env3, a2, rest2, heq, hF2, f, hf, hl⟩
            have henv : env2 = env3 := by injection heq
            subst henv
            rw [hF] at hF2
            have h1 : (some a : Option Address) = some a2 := by injection hF2
            have ha : a = a2 := by injection h1
            exact ⟨lowerString f, List.mem_map.mpr ⟨f, hf, rfl⟩, by simp [ha, hl]⟩

/-- A parseable plain-text entity used by concrete witnesses. -/
def witnessEntity : Entity := Entity.single "text/plain" (Except.ok "hello")

/-- An envelope from a sender not on the allow-list. -/
def otherEnvelope : Envelope :=
  ⟨[some ⟨"Somebody Else", "other", "elsewhere.example"⟩], "Spam"⟩

/-- A server oracle delivering UID 1 from the sample (allow-listed)
sender and every other UID from the other sender, all parseable. -/
def witnessOracle : Nat → FetchReply := fun u =>
  if u = 1 then
    FetchReply.delivered ⟨some sampleEnvelope, 1, some (Except.ok witnessEntity)⟩
  else
    FetchReply.delivered ⟨some otherEnvelope, u, some (Except.ok witnessEntity)⟩

/-- C1 witness: two unseen messages, the first from the allow-listed
sender in different letter case, the second from another sender; the
fetch returns exactly the first. -/
theorem C1_witness :
    ∃ out, fetchMessagesRobustly (ValidationReply.messages ([1, 2].map some))
        witnessOracle none (normalizeFilters ["Board@Org.Example"]) = Except.ok out
      ∧ out.map MailSummary.uid = [1]
      ∧ ∀ s ∈ out, isFromAddressMatching s.envelope
          (normalizeFilters ["Board@Org.Example"]) = true := by
  have hok : ∀ u ∈ [1, 2], ∃ env ent,
      witnessOracle u = FetchReply.delivered ⟨env, u, some (Except.ok ent)⟩ := by
    intro u hu
    rcases List.mem_cons.mp hu with rfl | hu
    · exact ⟨some sampleEnvelope, witnessEntity, by decide⟩
    · rcases List.mem_cons.mp hu with rfl | hu
      · exact ⟨some otherEnvelope, witnessEntity, by decide⟩
      · simp at hu
  obtain ⟨⟨out, h1, h2, h3⟩, _, _⟩ :=
    C1_fetcher_filters_exactly ["Board@Org.Example"] [1, 2] witnessOracle
      (by decide) hok
  refine ⟨out, h1, ?_, h3⟩
  rw [h2]
  decide

/-! ## C10 -/

/-- Helper: fetchLoopStep only returns ok by passing the rest result
through, possibly prepending a summary that fetchSingleMessage matched. -/
theorem fetchLoopStep_ok (oracle : Nat → FetchReply) (fs : List String)
    (u : Nat) (r : Except Unit (List MailSummary)) (out : List MailSummary)
    (h : fetchLoopStep oracle fs u r = Except.ok out) :
    r = Except.ok out ∨
    ∃ s out2, r = Except.ok out2 ∧ out = s :: out2 ∧
      fetchSingleMessage (oracle u) fs = SingleFetchOutcome.matched s := by
  unfold fetchLoopStep at h
  rcases hf : fetchSingleMessage (oracle u) fs with _ | _ | s
  · rw [hf] at h; exact Or.inl h
  · rw [hf] at h; exact Or.inl h
  · rw [hf] at h
    rcases r with e | out2
    · simp [Except.map] at h
    · simp only [Except.map] at h
      injection h with h2
      subst h2
      exact Or.inr ⟨s, out2, rfl, rfl, rfl⟩

/-- Helper: a matched summary passed the filter. -/
theorem matched_is_matching (r : FetchReply) (fs : List String)
    (s : MailSummary)
    (h : fetchSingleMessage r fs = SingleFetchOutcome.matched s) :
    isFromAddressMatching s.envelope fs = true := by
  cases r with
  | failed => simp [fetchSingleMessage] at h
  | noMessage => simp [fetchSingleMessage] at h
  | delivered m =>
    by_cases hm : isFromAddressMatching m.envelope fs = true
    · rcases hb : m.body with _ | b
      · simp [fetchSingleMessage, hm, hb] at h
      · rcases b with e | ent
        · simp [fetchSingleMessage, hm, hb] at h
        · simp only [fetchSingleMessage, hm, hb, if_true] at h
          injection h with h2
          rw [← h2]
          exact hm
    · simp [fetchSingleMessage, hm] at h

/-- Helper: a passing filter implies the envelope is present with a
non-nil first From entry. -/
theorem matching_has_from (env : Option Envelope) (fs : List String)
    (h : isFromAddressMatching env fs = true) :
    ∃ env2 a rest, env = some env2 ∧ env2.From = some a :: rest := by
  rcases env with _ | env2
  · simp [isFromAddressMatching] at h
  · rcases hF : env2.From with _ | ⟨a0, rest⟩
    · simp [isFromAddressMatching, hF] at h
    · rcases a0 with _ | a
      · simp [isFromAddressMatching, hF] at h
      · exact ⟨env2, a, rest, rfl, hF⟩

/-- Helper: every summary produced by the phase-2 loop has a readable
first From address. -/
theorem fetchLoop_summaries_have_from (oracle : Nat → FetchReply)
    (fs : List String) :
    ∀ (uids : List Nat) (c : Option Nat) (out : List MailSummary),
      fetchLoop oracle fs uids c = Except.ok out →
      ∀ s ∈ out, ∃ env a rest, s.envelope = some env ∧ env.From = some a :: rest := by
  intro uids
  induction uids with
  | nil =>
    intro c out h s hs
    simp only [fetchLoop] at h
    injection h with h
    subst h
    simp at hs
  | cons u rest ih =>
    intro c out h s hs
    have hstep : ∀ c2 : Option Nat,
        fetchLoopStep oracle fs u (fetchLoop oracle fs rest c2) = Except.ok out →
        ∃ env a r2, s.envelope = some env ∧ env.From = some a :: r2 := by
      intro c2 h2
      rcases fetchLoopStep_ok oracle fs u (fetchLoop oracle fs rest c2) out h2 with
        hpass | ⟨s2, out2, hr, hcons, hmatch⟩
      · exact ih c2 out hpass s hs
      · subst hcons
        rcases List.mem_cons.mp hs with rfl | hs2
        · exact matching_has_from s.envelope fs (matched_is_matching (oracle u) fs s hmatch)
        · exact ih c2 out2 hr s hs2
    match c with
    | some 0 => simp [fetchLoop] at h
    | some (n + 1) => exact hstep (some n) h
    | none => exact hstep none h

/-- C10: the sender-filter match is total on degenerate envelopes — a
nil envelope, an empty From list or a nil first From entry all yield
false without a panic — and consequently every summary the phase-2
fetch loop outputs carries an envelope with a readable first From
address. -/
theorem C10_filter_total_no_panic (filters : List String) :
    isFromAddressMatching none filters = false
    ∧ (∀ subj, isFromAddressMatching (some ⟨[], subj⟩) filters = false)
    ∧ (∀ subj rest, isFromAddressMatching (some ⟨none :: rest, subj⟩) filters = false)
    ∧ (∀ (oracle : Nat → FetchReply) (uids : List Nat) (cancelAfter : Option Nat)
          (out : List MailSummary),
        fetchLoop oracle filters uids cancelAfter = Except.ok out →
        ∀ s ∈ out, ∃ env a rest, s.envelope = some env ∧ env.From = some a :: rest) := by
  refine ⟨rfl, fun _ => rfl, fun _ _ => rfl, ?_⟩
  intro oracle uids c out h s hs
  exact fetchLoop_summaries_have_from oracle filters uids c out h s hs

/-- C10 witness: the theorem applied to a concrete one-message run. -/
theorem C10_witness :
    ∃ env a rest,
      (⟨some sampleEnvelope, 1, "hello", "", []⟩ : MailSummary).envelope = some env
      ∧ env.From = some a :: rest := by
  have h := (C10_filter_total_no_panic (normalizeFilters ["Board@Org.Example"])).2.2.2
    witnessOracle [1] none [⟨some sampleEnvelope, 1, "hello", "", []⟩] (by decide)
  exact h ⟨some sampleEnvelope, 1, "hello", "", []⟩ (by simp)

/-! ## C4 -/

/-- Helper: in the trace of a pass, every mark-seen event for a UID is
preceded by a completed successful forward attempt for that same UID. -/
theorem trace_mark_preceded (forwardOk markOk : Nat → Bool) :
    ∀ (mails : List Nat) (p s : List Event) (uid : Nat) (b : Bool),
      checkAndForwardTrace mails forwardOk markOk = p ++ Event.markSeen uid b :: s →
      Event.forwardAttempt uid true ∈ p := by
  intro mails
  induction mails with
  | nil =>
    intro p s uid b h
    rcases p with _ | ⟨a, p1⟩ <;> simp [checkAndForwardTrace] at h
  | cons m rest ih =>
    intro p s uid b h
    by_cases hm : forwardOk m = true
    · simp only [checkAndForwardTrace, forwardBlock, hm, if_true, List.cons_append,
        List.nil_append] at h
      rcases p with _ | ⟨a, p1⟩
      · simp at h
      · rcases p1 with _ | ⟨a2, p2⟩
        · simp only [List.cons_append, List.nil_append] at h
          injection h with h1 h23
          injection h23 with h2 h3
          injection h2 with hu hb
          subst hu
          subst h1
          simp
        · simp only [List.cons_append] at h
          injection h with h1 h23
          injection h23 with h2 h3
          exact List.mem_cons_of_mem _ (List.mem_cons_of_mem _ (ih p2 s uid b h3))
    · have hm2 : forwardOk m = false := by
        revert hm; cases forwardOk m <;> simp
      simp only [checkAndForwardTrace, forwardBlock, hm2, Bool.false_eq_true, if_false,
        List.cons_append, List.nil_append] at h
      rcases p with _ | ⟨a, p1⟩
      · simp at h
      · injection h with h1 h3
        exact List.mem_cons_of_mem _ (ih p1 s uid b h3)

/-- Helper: a UID whose forward attempt fails never gets a mark-seen
event in the trace of the pass. -/
theorem trace_no_mark_of_forward_failed (forwardOk markOk : Nat → Bool)
    (uid : Nat) (hfail : forwardOk uid = false) :
    ∀ (mails : List Nat) (b : Bool),
      Event.markSeen uid b ∉ checkAndForwardTrace mails forwardOk markOk := by
  intro mails
  induction mails with
  | nil => intro b h; simp [checkAndForwardTrace] at h
  | cons m rest ih =>
    intro b h
    simp only [checkAndForwardTrace, List.mem_append] at h
    rcases h with h | h
    · by_cases hm : forwardOk m = true
      · simp [forwardBlock, hm] at h
        obtain ⟨rfl, _⟩ := h
        rw [hfail] at hm
        exact Bool.noConfusion hm
      · have hm2 : forwardOk m = false := by
          revert hm; cases forwardOk m <;> simp
        simp [forwardBlock, hm2] at h
    · exact ih b h

/-- Helper: the forward events of the trace do not depend on the
mark-seen outcomes. -/
theorem trace_forward_events_independent (forwardOk markOk markOk2 : Nat → Bool) :
    ∀ mails : List Nat,
      (checkAndForwardTrace mails forwardOk markOk).filter isForwardEvent
        = (checkAndForwardTrace mails forwardOk markOk2).filter isForwardEvent := by
  intro mails
  induction mails with
  | nil => rfl
  | cons m rest ih =>
    simp only [checkAndForwardTrace, List.filter_append, ih]
    congr 1
    by_cases hm : forwardOk m = true
    · simp [forwardBlock, hm, isForwardEvent]
    · have hm2 : forwardOk m = false := by
        revert hm; cases forwardOk m <;> simp
      simp [forwardBlock, hm2, isForwardEvent]

/-- C4: in every processing pass, a mark-seen event for a message occurs
only after a completed successful forward attempt for that message; a
failed forward attempt means that message gets no mark-seen event (it
stays unseen for a later pass); and mark-seen outcomes neither change
the forward events of the pass nor make the pass fail. -/
theorem C4_mark_seen_only_after_forward (mails : List Nat)
    (forwardOk markOk : Nat → Bool) :
    (∀ (p s : List Event) (uid : Nat) (b : Bool),
        checkAndForwardTrace mails forwardOk markOk = p ++ Event.markSeen uid b :: s →
        Event.forwardAttempt uid true ∈ p)
    ∧ (∀ uid b, forwardOk uid = false →
        Event.markSeen uid b ∉ checkAndForwardTrace mails forwardOk markOk)
    ∧ (∀ markOk2 : Nat → Bool,
        (checkAndForwardTrace mails forwardOk markOk).filter isForwardEvent
          = (checkAndForwardTrace mails forwardOk markOk2).filter isForwardEvent)
    ∧ checkAndForwardResult (Except.ok mails) forwardOk markOk = Except.ok () := by
  refine ⟨?_, ?_, ?_, rfl⟩
  · intro p s uid b h
    exact trace_mark_preceded forwardOk markOk mails p s uid b h
  · intro uid b hf
    exact trace_no_mark_of_forward_failed forwardOk markOk uid hf mails b
  · intro markOk2
    exact trace_forward_events_independent forwardOk markOk markOk2 mails

/-- C4 witness: a pass over two messages where the first forward
succeeds (its mark-seen fails, harmlessly) and the second forward
fails (no mark-seen event for it). -/
theorem C4_witness :
    Event.forwardAttempt 1 true ∈ [Event.forwardAttempt 1 true]
    ∧ Event.markSeen 2 true ∉
        checkAndForwardTrace [1, 2] (fun u => u == 1) (fun _ => false) := by
  have h := C4_mark_seen_only_after_forward [1, 2] (fun u => u == 1) (fun _ => false)
  exact ⟨h.1 [Event.forwardAttempt 1 true] [Event.forwardAttempt 2 false] 1 false
      (by decide),
    h.2.1 2 true (by decide)⟩

end MailReflector
